import Mathlib

set_option maxRecDepth 4000
set_option linter.unusedVariables false

/-!
Verification development for tachibk-converter.py.

The program scans Kotlin data-model sources with two regular expressions
(PROTONUMBER_RE for field declarations, CLASS_RE for class definitions),
emits a protobuf schema, and converts backup containers between a
gzip-framed binary form and a JSON mirror through a generated serializer.

This file shallowly embeds:
  - the field-declaration matcher PROTONUMBER_RE (line 15 of the source)
    together with the per-field emission logic of parse_model (lines 80-99);
  - the DATA_TYPES mapping (lines 17-27);
  - the container codec functions read_backup, parse_json, write_backup,
    write_json and the main dispatch (lines 144-211), over an explicit
    file-system state, with the generated serializer as a parameter.
-/

/- Python character classes, ASCII range (the inputs are source text). -/

def isPySpace (c : Char) : Bool :=
  c = ' ' || c = '\t' || c = '\n' || c = '\r' || c = '\x0b' || c = '\x0c'

def isWordChar (c : Char) : Bool :=
  c.isAlphanum || c = '_'

def isDigitCh (c : Char) : Bool :=
  c.isDigit

/- Consume an exact literal. -/
def matchLit : List Char → List Char → Option (List Char)
  | [], s => some s
  | _ :: _, [] => none
  | l :: ls, c :: cs => if c = l then matchLit ls cs else none

def digitsVal (ds : List Char) : Nat :=
  ds.foldl (fun a c => 10 * a + (c.toNat - 48)) 0

/- The piece  @ProtoNumber\((?P<number>\d+)\)  of PROTONUMBER_RE. -/
def matchProtoNum (t : List Char) : Option (Nat × List Char) :=
  match matchLit "@ProtoNumber(".toList t with
  | none => none
  | some r1 =>
    let ds := r1.takeWhile isDigitCh
    let r2 := r1.dropWhile isDigitCh
    if ds.isEmpty then none
    else
      match r2 with
      | ')' :: r3 => some (digitsVal ds, r3)
      | _ => none

/- First alternative of the group that precedes va[rl] in PROTONUMBER_RE:
   ^\s*(?!\/\/\s*)@ProtoNumber\((?P<number>\d+)\)\s*
   The caller checks the ^ anchor.  The greedy \s* runs are deterministic
   here because the character required right after each run can never be
   matched by \s, so no backtracking case is lost.  The negative lookahead
   (?!\/\/\s*) fails exactly when the next two characters are both a
   slash, since \s* can match the empty string. -/
def matchP1 (t : List Char) : Option (Nat × List Char) :=
  if (t.dropWhile isPySpace).take 2 = ['/', '/'] then none
  else
    match matchProtoNum (t.dropWhile isPySpace) with
    | none => none
    | some (n, r) => some (n, r.dropWhile isPySpace)

/- Second alternative:  data class \w+\(  -/
def matchP2 (t : List Char) : Option (List Char) :=
  match matchLit "data class ".toList t with
  | none => none
  | some r1 =>
    let w := r1.takeWhile isWordChar
    let r2 := r1.dropWhile isWordChar
    if w.isEmpty then none
    else
      match r2 with
      | '(' :: r3 => some r3
      | _ => none

/- The regex type alternation (?:(?:List|Set)<(?P<list>\w+)>)|(?P<type>\w+)
   binds exactly one of the two groups, which a sum type captures. -/
inductive TypeGroups
  | coll (e : List Char)
  | scalar (t : List Char)
deriving DecidableEq

/- Groups captured by one PROTONUMBER_RE match, past the prefix group. -/
structure CoreMatch where
  fname : List Char
  groups : TypeGroups
  optMark : Bool
deriving DecidableEq

/- field.group('list') and field.group('type'). -/
def CoreMatch.list (f : CoreMatch) : Option (List Char) :=
  match f.groups with
  | TypeGroups.coll e => some e
  | TypeGroups.scalar _ => none

def CoreMatch.ftype (f : CoreMatch) : Option (List Char) :=
  match f.groups with
  | TypeGroups.coll _ => none
  | TypeGroups.scalar t => some t

structure FieldMatch where
  num : Option Nat
  core : CoreMatch
deriving DecidableEq

/- (?:List|Set)<(?P<list>\w+)> -/
def matchColl1 (kw : List Char) (t : List Char) : Option (List Char × List Char) :=
  match matchLit kw t with
  | none => none
  | some r1 =>
    match r1 with
    | '<' :: r2 =>
      let w := r2.takeWhile isWordChar
      let r3 := r2.dropWhile isWordChar
      if w.isEmpty then none
      else
        match r3 with
        | '>' :: r4 => some (w, r4)
        | _ => none
    | _ => none

def matchColl (t : List Char) : Option (List Char × List Char) :=
  match matchColl1 "List".toList t with
  | some res => some res
  | none => matchColl1 "Set".toList t

/- The type alternation (?:(?:(?:List|Set)<(?P<list>\w+)>)|(?P<type>\w+)):
   the collection branch first, else a plain word captured as type. -/
def matchTypePart (t : List Char) : Option (TypeGroups × List Char) :=
  match matchColl t with
  | some (e, r) => some (TypeGroups.coll e, r)
  | none =>
    let ty := t.takeWhile isWordChar
    if ty.isEmpty then none
    else some (TypeGroups.scalar ty, t.dropWhile isWordChar)

/- The sub-pattern  :?\s+=  of the optional group. -/
def matchAssign (t : List Char) : Option (List Char) :=
  let ws := t.takeWhile isPySpace
  let r1 := t.dropWhile isPySpace
  if ws.isEmpty then none
  else
    match r1 with
    | '=' :: r2 => some r2
    | _ => none

/- (?P<optional>\?|(:?\s+=))?  — tries ? first, then the assignment shape
   with its optional leading colon (greedy: with the colon consumed first,
   then without), and otherwise matches the empty string. -/
def matchOptMark (t : List Char) : Bool × List Char :=
  match t with
  | '?' :: r => (true, r)
  | ':' :: r =>
    (match matchAssign r with
     | some r2 => (true, r2)
     | none =>
       match matchAssign t with
       | some r2 => (true, r2)
       | none => (false, t))
  | _ =>
    match matchAssign t with
    | some r2 => (true, r2)
    | none => (false, t)

/- va[rl]\s+(?P<name>\w+):\s+ (type alternation) (optional group) -/
def matchCore (t : List Char) : Option (CoreMatch × List Char) :=
  match t with
  | 'v' :: 'a' :: c :: r0 =>
    if c = 'r' || c = 'l' then
      let ws1 := r0.takeWhile isPySpace
      let r1 := r0.dropWhile isPySpace
      if ws1.isEmpty then none
      else
        let nm := r1.takeWhile isWordChar
        let r2 := r1.dropWhile isWordChar
        if nm.isEmpty then none
        else
          match r2 with
          | ':' :: r3 =>
            let ws2 := r3.takeWhile isPySpace
            let r4 := r3.dropWhile isPySpace
            if ws2.isEmpty then none
            else
              match matchTypePart r4 with
              | some (g, r5) =>
                let om := matchOptMark r5
                some (⟨nm, g, om.1⟩, om.2)
              | none => none
          | _ => none
    else none
  | _ => none

/- The three prefix alternatives combined with the core, in the order the
   regex engine tries them.  When a prefix alternative succeeds but the
   core fails, the remaining alternatives genuinely fail as well (the text
   at the position is then fixed to be whitespace-then-annotation), so
   this ordered choice is the regex backtracking behaviour. -/
def branchP1 (atLineStart : Bool) (t : List Char) : Option (FieldMatch × List Char) :=
  if atLineStart then
    match matchP1 t with
    | some (n, r) =>
      match matchCore r with
      | some (f, rest) => some (⟨some n, f⟩, rest)
      | none => none
    | none => none
  else none

def branchP2 (t : List Char) : Option (FieldMatch × List Char) :=
  match matchP2 t with
  | some r =>
    match matchCore r with
    | some (f, rest) => some (⟨none, f⟩, rest)
    | none => none
  | none => none

def branchP3 (atLineStart : Bool) (t : List Char) : Option (FieldMatch × List Char) :=
  if atLineStart then
    match matchCore t with
    | some (f, rest) => some (⟨none, f⟩, rest)
    | none => none
  else none

def matchFieldAt (atLineStart : Bool) (t : List Char) : Option (FieldMatch × List Char) :=
  match branchP1 atLineStart t with
  | some res => some res
  | none =>
    match branchP2 t with
    | some res => some res
    | none => branchP3 atLineStart t

/- re.MULTILINE: ^ matches at offset 0 and right after every newline. -/
def lineStartFlag (s : List Char) (k : Nat) : Bool :=
  k = 0 || s.get? (k - 1) = some '\n'

/- re.finditer: scan offsets left to right, emit each match and resume at
   its end.  Every match consumes at least the three characters va[rl],
   so fuel equal to the length of the text suffices. -/
def scanFrom (s : List Char) : Nat → Nat → List FieldMatch
  | 0, _ => []
  | fuel + 1, k =>
    if s.length ≤ k then []
    else
      match matchFieldAt (lineStartFlag s k) (s.drop k) with
      | some (f, r) => f :: scanFrom s fuel (s.length - r.length)
      | none => scanFrom s fuel (k + 1)

def scanFields (s : List Char) : List FieldMatch :=
  scanFrom s (s.length + 1) 0

example :
    scanFields "val x: Int".toList =
      [⟨none, ⟨"x".toList, TypeGroups.scalar "Int".toList, false⟩⟩] := by decide

example :
    scanFields "@ProtoNumber(4) val x: Int".toList =
      [⟨some 4, ⟨"x".toList, TypeGroups.scalar "Int".toList, false⟩⟩] := by decide

example :
    scanFields "val x: List<Int>?".toList =
      [⟨none, ⟨"x".toList, TypeGroups.coll "Int".toList, true⟩⟩] := by decide

example :
    scanFields "// @ProtoNumber(3)\nval x: Int".toList =
      [⟨none, ⟨"x".toList, TypeGroups.scalar "Int".toList, false⟩⟩] := by decide

/- str.startswith / str.endswith. -/

def strStartsWith (s p : String) : Bool := p.toList.isPrefixOf s.toList

def strEndsWith (s p : String) : Bool := p.toList.isSuffixOf s.toList

/- DATA_TYPES, lines 17-27 of the source ('UpdateStrategy' stays
   commented out there). -/
def DATA_TYPES : List (List Char × List Char) :=
  [("String".toList, "string".toList),
   ("Int".toList, "int32".toList),
   ("Long".toList, "int64".toList),
   ("Boolean".toList, "bool".toList),
   ("Float".toList, "float".toList),
   ("PreferenceValue".toList, "bytes".toList)]

/- dict.get(key, default-of-none): a key of Python None is absent. -/
def dictGet (m : List (List Char × List Char)) (k : Option (List Char)) :
    Option (List Char) :=
  match k with
  | none => none
  | some s => (m.find? (fun p => p.1 == s)).map (fun p => p.2)

/- Lines 87-93:
   DATA_TYPES.get(type, DATA_TYPES.get(list, list or type)). -/
def fieldWireType (f : CoreMatch) : Option (List Char) :=
  match dictGet DATA_TYPES f.ftype with
  | some w => some w
  | none =>
    match dictGet DATA_TYPES f.list with
    | some w => some w
    | none => f.list.orElse (fun _ => f.ftype)

/- Lines 82-86: repeated if the list group matched, else optional if the
   optional group matched, else required.  Both groups are nonempty
   strings whenever they matched, so Python truthiness is isSome. -/
def fieldCardinality (f : CoreMatch) : List Char :=
  if f.list.isSome then "repeated".toList
  else if f.optMark then "optional".toList
  else "required".toList

/- Lines 95-97:
   number = field.group('number') or 1
              if not name.group('name').startswith('Broken')
              else int(field.group('number')) + 1
   For a class whose name starts with Broken and a field with no number
   group, int(None) raises TypeError; that outcome is the none value. -/
def emittedNumber (className : String) (num : Option Nat) : Option Nat :=
  if !(strStartsWith className "Broken") then some (num.getD 1)
  else num.map (fun n => n + 1)

/- One formatted field line of parse_model (line 81), kept structured:
   '  {repeated} {type} {name} = {number};'.  A wire type of Python None
   would render as the string None. -/
structure EmittedField where
  card : List Char
  wire : List Char
  fname : List Char
  num : Nat
deriving DecidableEq

def emitField (className : String) (f : FieldMatch) : Option EmittedField :=
  (emittedNumber className f.num).map (fun n =>
    ⟨fieldCardinality f.core, (fieldWireType f.core).getD "None".toList,
     f.core.fname, n⟩)

/- The field lines parse_model emits for one class (the class name and
   body come from a CLASS_RE match); none when a TypeError aborts. -/
def parse_model_fields (className : String) (defs : String) :
    Option (List EmittedField) :=
  (scanFields defs.toList).mapM (emitField className)

example :
    parse_model_fields "Backup" "@ProtoNumber(4) val x: Int" =
      some [⟨"required".toList, "int32".toList, "x".toList, 4⟩] := by decide

example :
    parse_model_fields "BrokenFoo" "@ProtoNumber(4) val x: Int" =
      some [⟨"required".toList, "int32".toList, "x".toList, 5⟩] := by decide

example : parse_model_fields "BrokenFoo" "val x: Int" = none := by decide

/- Container codec state: a file maps to its stored value.  The gz
   constructor is the gzip stream framing; gzip-writing a byte string b
   stores gz b, gzip-reading a file succeeds only on gz b and yields b,
   a plain read yields the stored value unchanged. -/
inductive Bytes
  | raw (data : List Nat)
  | text (s : String)
  | gz (inner : Bytes)
deriving DecidableEq

abbrev FS := List (String × Bytes)

def FS.read (fs : FS) (p : String) : Option Bytes :=
  (List.find? (fun q => q.1 == p) fs).map (fun q => q.2)

def FS.write (fs : FS) (p : String) (b : Bytes) : FS :=
  (p, b) :: fs

/- The generated serializer (external collaborator), as parameters:
   Parse(json, Backup()).SerializeToString() composed (none = ParseError),
   Backup().ParseFromString (none = DecodeError), and MessageToJson. -/
structure Serializer where
  parseJsonToBytes : Bytes → Option Bytes
  parseFromString : Bytes → Option Bytes
  msgToJson : Bytes → String

inductive ExitStatus
  | finished
  | exited (code : Nat)
  | raised (exn : String)
deriving DecidableEq

structure Outcome where
  fs : FS
  printed : List String
  status : ExitStatus
deriving DecidableEq

def usageHelp : String := "usage: tachibk-converter [-h] ..."

/- read_backup, lines 144-158.  The gzip branch has no try, so a missing
   input file or non-gzip content raises; the plain branch catches only
   OSError around the read of extracted_tachibk. -/
inductive RBResult
  | ok (data : Bytes) (fs : FS)
  | exitNoBackup (fs : FS)
  | raised (exn : String) (fs : FS)
deriving DecidableEq

def read_backup (fs : FS) (input : String) : RBResult :=
  if strEndsWith input ".tachibk" || strEndsWith input ".proto.gz" then
    match FS.read fs input with
    | some (Bytes.gz inner) =>
      RBResult.ok inner (FS.write fs "extracted_tachibk" inner)
    | some _ => RBResult.raised "BadGzipFile" fs
    | none => RBResult.raised "FileNotFoundError" fs
  else
    match FS.read fs "extracted_tachibk" with
    | some b => RBResult.ok b fs
    | none => RBResult.exitNoBackup fs

/- CPython open() rejects a mode string without exactly one of r, w, a, x
   with ValueError before touching the file system. -/
def pyOpenModeOk (mode : String) : Bool :=
  (mode.toList.filter (fun c => c = 'r' || c = 'w' || c = 'a' || c = 'x')).length == 1

/- parse_json, lines 173-184.  The call is open(input, 'b'): the mode
   check fails first, and ValueError is not an OSError, so the except
   branch never runs and the error propagates uncaught. -/
inductive PJResult
  | ok (bytes : Bytes)
  | exitCouldNotRead
  | exitInvalidJson
  | raised (exn : String)
deriving DecidableEq

def parse_json (ser : Serializer) (fs : FS) (input : String) : PJResult :=
  if !(pyOpenModeOk "b") then PJResult.raised "ValueError"
  else
    match FS.read fs input with
    | none => PJResult.exitCouldNotRead
    | some content =>
      match ser.parseJsonToBytes content with
      | some bytes => PJResult.ok bytes
      | none => PJResult.exitInvalidJson

/- write_backup, lines 187-203. -/
def effectiveOutput (outputArg : String) : String :=
  if outputArg = "output.json" then "encoded_backup.tachibk" else outputArg

def write_backup (fs : FS) (outputArg : String) (message : Bytes) : Outcome :=
  if strEndsWith (effectiveOutput outputArg) ".proto.gz" ||
     strEndsWith (effectiveOutput outputArg) ".tachibk" then
    ⟨FS.write fs (effectiveOutput outputArg) (Bytes.gz message),
     ["Compressed backup written to " ++ effectiveOutput outputArg], ExitStatus.finished⟩
  else
    ⟨FS.write fs (effectiveOutput outputArg) message,
     ["Uncompressed backup written to " ++ effectiveOutput outputArg], ExitStatus.finished⟩

/- write_json, lines 167-170: writes to args.output unchanged. -/
def write_json (ser : Serializer) (fs : FS) (outputArg : String)
    (message : Bytes) : Outcome :=
  ⟨FS.write fs outputArg (Bytes.text (ser.msgToJson message)),
   ["Backup decoded to " ++ outputArg], ExitStatus.finished⟩

/- The two conversion directions of the main dispatch, lines 206-211. -/
def encodeMain (ser : Serializer) (fs : FS) (input outputArg : String) : Outcome :=
  match parse_json ser fs input with
  | PJResult.raised e => ⟨fs, [], ExitStatus.raised e⟩
  | PJResult.exitCouldNotRead =>
    ⟨fs, ["ERROR! Could not read the JSON file."], ExitStatus.exited 1⟩
  | PJResult.exitInvalidJson =>
    ⟨fs, ["The input JSON file is invalid."], ExitStatus.exited 1⟩
  | PJResult.ok bytes => write_backup fs outputArg bytes

def decodeMain (ser : Serializer) (fs : FS) (input outputArg : String) : Outcome :=
  match read_backup fs input with
  | RBResult.exitNoBackup fs2 =>
    ⟨fs2, ["ERROR! No Backup to process.", usageHelp], ExitStatus.exited 1⟩
  | RBResult.raised e fs2 => ⟨fs2, [], ExitStatus.raised e⟩
  | RBResult.ok data fs2 =>
    match ser.parseFromString data with
    | none => ⟨fs2, [], ExitStatus.raised "DecodeError"⟩
    | some msg => write_json ser fs2 outputArg msg

def mainRun (ser : Serializer) (fs : FS) (input outputArg : String) : Outcome :=
  if strEndsWith input ".json" then encodeMain ser fs input outputArg
  else decodeMain ser fs input outputArg

/- A trivial serializer instance, for closed instantiations. -/
def serStub : Serializer :=
  ⟨fun _ => none, fun _ => none, fun _ => ""⟩

example : parse_json serStub [] "output.json" = PJResult.raised "ValueError" := by decide

/- Occurrence predicates over the scanned text, for the commented-out
   tag question: an annotation occurrence is a position where the full
   @ProtoNumber(digits) shape matches, and it is comment-prefixed when a
   line-comment marker (two slashes) starts earlier on the same line. -/

def protoNumAt (s : List Char) (i : Nat) : Bool :=
  (matchProtoNum (s.drop i)).isSome

def commentMarkAt (s : List Char) (j : Nat) : Bool :=
  decide (s.get? j = some '/') && decide (s.get? (j + 1) = some '/')

def noNewlineBetween (s : List Char) (j i : Nat) : Bool :=
  (List.range (i - j)).all (fun d => !(decide (s.get? (j + d) = some '\n')))

def commentBeforeOnLine (s : List Char) (i : Nat) : Bool :=
  (List.range i).any (fun j =>
    commentMarkAt s j && decide (j + 2 ≤ i) && noNewlineBetween s j i)

example : commentBeforeOnLine "// @ProtoNumber(3)\nval x: Int".toList 3 = true := by decide

example : protoNumAt "// @ProtoNumber(3)\nval x: Int".toList 3 = true := by decide

/- File-system helper lemmas. -/

theorem FS.read_write_self (fs : FS) (p : String) (b : Bytes) :
    FS.read (FS.write fs p b) p = some b := by
  simp [FS.read, FS.write, List.find?_cons_of_pos]

theorem FS.read_write_other (fs : FS) (p q : String) (b : Bytes) (h : p ≠ q) :
    FS.read (FS.write fs p b) q = FS.read fs q := by
  unfold FS.read FS.write
  rw [List.find?_cons_of_neg]
  simp [h]

theorem write_backup_fs (fs : FS) (outputArg : String) (message : Bytes) :
    (write_backup fs outputArg message).fs =
      FS.write fs (effectiveOutput outputArg)
        (if strEndsWith (effectiveOutput outputArg) ".proto.gz" ||
            strEndsWith (effectiveOutput outputArg) ".tachibk"
         then Bytes.gz message else message) := by
  unfold write_backup
  split <;> simp_all

/-- C1 (code bug): the encode-from-JSON direction never completes.  With
the default scenario input output.json (which routes to the encode
branch of the main dispatch), parse_json executes open(input, 'b'); the
mode string 'b' lacks a read/write/append/create flag, so CPython raises
ValueError before reading, the except OSError handler does not catch it,
and the process dies with an uncaught exception leaving the file system
unchanged — no encoded_backup.tachibk is ever produced. -/
theorem c1_encode_always_raises (ser : Serializer) (fs : FS) (outputArg : String) :
    mainRun ser fs "output.json" outputArg =
      ⟨fs, [], ExitStatus.raised "ValueError"⟩ := by
  have h1 : strEndsWith "output.json" ".json" = true := by decide
  have h2 : pyOpenModeOk "b" = false := by decide
  unfold mainRun encodeMain parse_json
  rw [h1, h2]
  simp

/-- C6 (code bug): for every JSON input — malformed, unreadable or even
well-formed — parse_json raises an uncaught ValueError from
open(input, 'b') before any read or parse, so neither the short
diagnostic exit for malformed JSON nor the Could-not-read diagnostic is
ever reached, and the encode invocation terminates with an unhandled
exception printing no diagnostic. -/
theorem c6_invalid_json_uncaught (ser : Serializer) (fs : FS) (input outputArg : String) :
    parse_json ser fs input = PJResult.raised "ValueError" ∧
    encodeMain ser fs input outputArg = ⟨fs, [], ExitStatus.raised "ValueError"⟩ := by
  have h2 : pyOpenModeOk "b" = false := by decide
  have hp : parse_json ser fs input = PJResult.raised "ValueError" := by
    unfold parse_json; rw [h2]; simp
  exact ⟨hp, by unfold encodeMain; rw [hp]⟩

/-- C7 (confirmed): invoking the decode direction with an input path that
carries neither recognized compressed-container extension, when no
extracted_tachibk file exists, prints the No-Backup diagnostic and the
usage help, exits with status 1, and creates no output file (the file
system in the outcome is unchanged). -/
theorem c7_no_backup_exit (ser : Serializer) (fs : FS) (input outputArg : String)
    (h1 : strEndsWith input ".tachibk" = false)
    (h2 : strEndsWith input ".proto.gz" = false)
    (h3 : FS.read fs "extracted_tachibk" = none) :
    decodeMain ser fs input outputArg =
      ⟨fs, ["ERROR! No Backup to process.", usageHelp], ExitStatus.exited 1⟩ := by
  unfold decodeMain read_backup
  rw [h1, h2, h3]
  simp

theorem c7_no_backup_exit_witness :
    decodeMain serStub [] "backup.bin" "output.json" =
      ⟨[], ["ERROR! No Backup to process.", usageHelp], ExitStatus.exited 1⟩ :=
  c7_no_backup_exit serStub [] "backup.bin" "output.json" (by decide) (by decide) rfl

/-- C9 (confirmed): decoding an input whose path ends in .tachibk or
.proto.gz writes the decompressed payload to the side file
extracted_tachibk; for any other input path the named input file is
never consulted — the result is a function of the extracted_tachibk
entry alone (and equal for any two such input paths), its content being
served as the backup bytes. -/
theorem c9_read_backup_frame (fs : FS) (input : String) :
    ((strEndsWith input ".tachibk" = true ∨ strEndsWith input ".proto.gz" = true) →
      ∀ inner, FS.read fs input = some (Bytes.gz inner) →
        read_backup fs input =
          RBResult.ok inner (FS.write fs "extracted_tachibk" inner)) ∧
    (strEndsWith input ".tachibk" = false → strEndsWith input ".proto.gz" = false →
      (∀ b, FS.read fs "extracted_tachibk" = some b →
         read_backup fs input = RBResult.ok b fs) ∧
      (FS.read fs "extracted_tachibk" = none →
         read_backup fs input = RBResult.exitNoBackup fs) ∧
      (∀ input2, strEndsWith input2 ".tachibk" = false →
         strEndsWith input2 ".proto.gz" = false →
         read_backup fs input = read_backup fs input2)) := by
  constructor
  · intro hor inner hread
    unfold read_backup
    have hcond : (strEndsWith input ".tachibk" || strEndsWith input ".proto.gz") = true := by
      rcases hor with h | h <;> simp [h]
    rw [hcond, hread]
    simp
  · intro h1 h2
    have hcond : (strEndsWith input ".tachibk" || strEndsWith input ".proto.gz") = false := by
      simp [h1, h2]
    refine ⟨fun b hb => ?_, fun hb => ?_, fun input2 g1 g2 => ?_⟩
    · unfold read_backup; rw [hcond, hb]; simp
    · unfold read_backup; rw [hcond, hb]; simp
    · have gcond : (strEndsWith input2 ".tachibk" || strEndsWith input2 ".proto.gz") = false := by
        simp [g1, g2]
      unfold read_backup
      rw [hcond, gcond]
      simp

theorem c9_read_backup_frame_witness :
    read_backup [("b.tachibk", Bytes.gz (Bytes.raw [1, 2]))] "b.tachibk" =
      RBResult.ok (Bytes.raw [1, 2])
        (FS.write [("b.tachibk", Bytes.gz (Bytes.raw [1, 2]))] "extracted_tachibk"
          (Bytes.raw [1, 2])) ∧
    read_backup [("extracted_tachibk", Bytes.raw [3])] "b.bin" =
      RBResult.ok (Bytes.raw [3]) [("extracted_tachibk", Bytes.raw [3])] := by
  constructor
  · exact (c9_read_backup_frame _ _).1 (Or.inl (by decide)) _ (by decide)
  · exact ((c9_read_backup_frame _ _).2 (by decide) (by decide)).1 _ (by decide)

/-- C5 counterexample: the output path output.json ends in neither
recognized compressed-container extension, yet encoding with it produces
a stream-compressed file (at encoded_backup.tachibk) and no raw bytes at
the named path — refuting, at this concrete input, that any output path
without those extensions produces the raw uncompressed bytes. -/
theorem c5_counterexample :
    strEndsWith "output.json" ".tachibk" = false ∧
    strEndsWith "output.json" ".proto.gz" = false ∧
    write_backup [] "output.json" (Bytes.raw [7]) =
      ⟨[("encoded_backup.tachibk", Bytes.gz (Bytes.raw [7]))],
       ["Compressed backup written to encoded_backup.tachibk"], ExitStatus.finished⟩ ∧
    FS.read (write_backup [] "output.json" (Bytes.raw [7])).fs "output.json" = none := by
  exact ⟨by decide, by decide, by decide, by decide⟩

/-- C5 amended: the compression decision is taken on the effective output
path after the default remap.  For every output path other than the
literal output.json the claim holds as stated: a recognized extension
yields a gzip write, anything else a raw write; the literal output.json
is first replaced by encoded_backup.tachibk and hence compressed.  When
decoding, gzip-decompression is chosen solely by the input extension:
with a recognized extension the stored gzip frame is unwrapped (and
non-gzip content raises, content is never sniffed), otherwise the bytes
come unprocessed from extracted_tachibk. -/
theorem c5_amended_framing (fs : FS) (outputArg input : String) (message : Bytes) :
    (outputArg ≠ "output.json" →
      ((strEndsWith outputArg ".proto.gz" = true ∨ strEndsWith outputArg ".tachibk" = true) →
        write_backup fs outputArg message =
          ⟨FS.write fs outputArg (Bytes.gz message),
           ["Compressed backup written to " ++ outputArg], ExitStatus.finished⟩) ∧
      (strEndsWith outputArg ".proto.gz" = false → strEndsWith outputArg ".tachibk" = false →
        write_backup fs outputArg message =
          ⟨FS.write fs outputArg message,
           ["Uncompressed backup written to " ++ outputArg], ExitStatus.finished⟩)) ∧
    (write_backup fs "output.json" message =
       ⟨FS.write fs "encoded_backup.tachibk" (Bytes.gz message),
        ["Compressed backup written to encoded_backup.tachibk"], ExitStatus.finished⟩) ∧
    ((strEndsWith input ".tachibk" = true ∨ strEndsWith input ".proto.gz" = true) →
      (∀ inner, FS.read fs input = some (Bytes.gz inner) →
         read_backup fs input = RBResult.ok inner (FS.write fs "extracted_tachibk" inner)) ∧
      (∀ d, FS.read fs input = some (Bytes.raw d) →
         read_backup fs input = RBResult.raised "BadGzipFile" fs)) ∧
    (strEndsWith input ".tachibk" = false → strEndsWith input ".proto.gz" = false →
      read_backup fs input =
        (match FS.read fs "extracted_tachibk" with
         | some b => RBResult.ok b fs
         | none => RBResult.exitNoBackup fs)) := by
  refine ⟨fun hne => ⟨fun hor => ?_, fun h1 h2 => ?_⟩, ?_, fun hor => ⟨?_, ?_⟩, fun h1 h2 => ?_⟩
  · have he : effectiveOutput outputArg = outputArg := by
      unfold effectiveOutput; rw [if_neg hne]
    have hcond : (strEndsWith outputArg ".proto.gz" || strEndsWith outputArg ".tachibk") = true := by
      rcases hor with h | h <;> simp [h]
    unfold write_backup
    rw [he, hcond]
    simp
  · have he : effectiveOutput outputArg = outputArg := by
      unfold effectiveOutput; rw [if_neg hne]
    unfold write_backup
    rw [he, h1, h2]
    simp
  · unfold write_backup
    have he : effectiveOutput "output.json" = "encoded_backup.tachibk" := by decide
    rw [he]
    have hc : (strEndsWith "encoded_backup.tachibk" ".proto.gz" ||
            strEndsWith "encoded_backup.tachibk" ".tachibk") = true := by decide
    rw [hc]
    simp
  · intro inner hread
    have hcond : (strEndsWith input ".tachibk" || strEndsWith input ".proto.gz") = true := by
      rcases hor with h | h <;> simp [h]
    unfold read_backup
    rw [hcond, hread]
    simp
  · intro d hread
    have hcond : (strEndsWith input ".tachibk" || strEndsWith input ".proto.gz") = true := by
      rcases hor with h | h <;> simp [h]
    unfold read_backup
    rw [hcond, hread]
    simp
  · have hcond : (strEndsWith input ".tachibk" || strEndsWith input ".proto.gz") = false := by
      simp [h1, h2]
    unfold read_backup
    rw [hcond]
    simp

theorem c5_amended_framing_witness :
    write_backup [] "out.bin" (Bytes.raw [7]) =
      ⟨FS.write [] "out.bin" (Bytes.raw [7]),
       ["Uncompressed backup written to " ++ "out.bin"], ExitStatus.finished⟩ ∧
    write_backup [] "b.tachibk" (Bytes.raw [7]) =
      ⟨FS.write [] "b.tachibk" (Bytes.gz (Bytes.raw [7])),
       ["Compressed backup written to " ++ "b.tachibk"], ExitStatus.finished⟩ := by
  constructor
  · exact ((c5_amended_framing [] "out.bin" "x" (Bytes.raw [7])).1 (by decide)).2
      (by decide) (by decide)
  · exact ((c5_amended_framing [] "b.tachibk" "x" (Bytes.raw [7])).1 (by decide)).1
      (Or.inr (by decide))

/-- C10 (confirmed): write_backup never writes to output.json — the file
output.json is untouched for every output argument; when the output
argument equals output.json (default or explicit) the compressed backup
goes to encoded_backup.tachibk instead; and any other output argument is
used verbatim as the written path. -/
theorem c10_output_remap (fs : FS) (outputArg : String) (message : Bytes) :
    (FS.read (write_backup fs outputArg message).fs "output.json" =
       FS.read fs "output.json") ∧
    (outputArg = "output.json" →
       write_backup fs outputArg message =
         ⟨FS.write fs "encoded_backup.tachibk" (Bytes.gz message),
          ["Compressed backup written to encoded_backup.tachibk"],
          ExitStatus.finished⟩) ∧
    (outputArg ≠ "output.json" → effectiveOutput outputArg = outputArg ∧
       FS.read (write_backup fs outputArg message).fs outputArg =
         some (if strEndsWith outputArg ".proto.gz" || strEndsWith outputArg ".tachibk"
               then Bytes.gz message else message)) := by
  refine ⟨?_, fun he => ?_, fun hne => ?_⟩
  · rw [write_backup_fs]
    apply FS.read_write_other
    unfold effectiveOutput
    split
    · decide
    · assumption
  · subst he
    unfold write_backup
    have he2 : effectiveOutput "output.json" = "encoded_backup.tachibk" := by decide
    rw [he2]
    have hc : (strEndsWith "encoded_backup.tachibk" ".proto.gz" ||
            strEndsWith "encoded_backup.tachibk" ".tachibk") = true := by decide
    rw [hc]
    simp
  · have he : effectiveOutput outputArg = outputArg := by
      unfold effectiveOutput; rw [if_neg hne]
    refine ⟨he, ?_⟩
    rw [write_backup_fs, he]
    exact FS.read_write_self fs outputArg _

theorem c10_output_remap_witness :
    write_backup [] "output.json" (Bytes.raw [9]) =
      ⟨FS.write [] "encoded_backup.tachibk" (Bytes.gz (Bytes.raw [9])),
       ["Compressed backup written to encoded_backup.tachibk"], ExitStatus.finished⟩ ∧
    FS.read (write_backup [] "custom.bin" (Bytes.raw [9])).fs "custom.bin" =
      some (Bytes.raw [9]) := by
  constructor
  · exact (c10_output_remap [] "output.json" (Bytes.raw [9])).2.1 rfl
  · have h := ((c10_output_remap [] "custom.bin" (Bytes.raw [9])).2.2 (by decide)).2
    rw [h]
    decide

/-- C2 counterexample: in the class BrokenFoo, a field declaration with
no tag annotation does not yield a field with tag 2 — the value
expression int(None) + 1 raises a TypeError, so no field is emitted at
all (the emission for the class aborts). -/
theorem c2_counterexample :
    parse_model_fields "BrokenFoo" "val x: Int" = none ∧
    parse_model_fields "BrokenFoo" "val x: Int" ≠
      some [⟨"required".toList, "int32".toList, "x".toList, 2⟩] := by
  exact ⟨by decide, by decide⟩

/-- C2 amended: for every recognized field declaration, when the owning
class name does not start with Broken the emitted tag is the explicit
value if present and 1 otherwise; when it does start with Broken, an
explicit tag N is emitted as N + 1, but an absent tag aborts the
emission with a TypeError (modelled as none) instead of yielding 2. -/
theorem c2_amended_tag (className body : String) (f : FieldMatch)
    (hf : f ∈ scanFields body.toList) :
    (strStartsWith className "Broken" = false →
       emitField className f =
         some ⟨fieldCardinality f.core, (fieldWireType f.core).getD "None".toList,
               f.core.fname, f.num.getD 1⟩) ∧
    (strStartsWith className "Broken" = true →
       (∀ n, f.num = some n →
          emitField className f =
            some ⟨fieldCardinality f.core, (fieldWireType f.core).getD "None".toList,
                  f.core.fname, n + 1⟩) ∧
       (f.num = none → emitField className f = none)) := by
  unfold emitField emittedNumber
  refine ⟨fun h => ?_, fun h => ⟨fun n hn => ?_, fun hn => ?_⟩⟩
  · rw [h]; simp
  · rw [h, hn]; simp
  · rw [h, hn]; simp

theorem c2_amended_tag_witness :
    emitField "BrokenFoo" ⟨some 4, ⟨"x".toList, TypeGroups.scalar "Int".toList, false⟩⟩ =
      some ⟨"required".toList, "int32".toList, "x".toList, 5⟩ := by
  have h := ((c2_amended_tag "BrokenFoo" "@ProtoNumber(4) val x: Int"
      ⟨some 4, ⟨"x".toList, TypeGroups.scalar "Int".toList, false⟩⟩ (by decide)).2
      (by decide)).1 4 rfl
  rw [h]
  decide

/-- C3 counterexample: the declaration val x: List&lt;Int&gt;? is both a
homogeneous collection and marked nullable; the scanner recognizes it
with the nullable marker set, yet its emitted cardinality is repeated,
not optional — refuting, at this concrete declaration, that cardinality
is optional whenever the nullable marker is present. -/
theorem c3_counterexample :
    (scanFields "val x: List<Int>?".toList).map
        (fun f => (f.core.optMark, fieldCardinality f.core)) =
      [(true, "repeated".toList)] ∧
    "repeated".toList ≠ "optional".toList := by
  exact ⟨by decide, by decide⟩

/-- C3 amended: for every recognized field declaration the cardinality is
repeated exactly when the collection group matched; optional exactly
when the nullable-or-default marker matched and the collection group did
not (collection shape takes priority over the marker); and required
exactly when neither matched. -/
theorem c3_amended_cardinality (body : String) (f : FieldMatch)
    (hf : f ∈ scanFields body.toList) :
    (fieldCardinality f.core = "repeated".toList ↔ f.core.list.isSome = true) ∧
    (fieldCardinality f.core = "optional".toList ↔
       (f.core.optMark = true ∧ f.core.list = none)) ∧
    (fieldCardinality f.core = "required".toList ↔
       (f.core.optMark = false ∧ f.core.list = none)) := by
  unfold fieldCardinality
  rcases hl : f.core.list with _ | e <;> rcases hm : f.core.optMark <;> simp_all

theorem c3_amended_cardinality_witness :
    fieldCardinality ⟨"x".toList, TypeGroups.coll "Int".toList, true⟩ = "repeated".toList := by
  exact (c3_amended_cardinality "val x: List<Int>?"
      ⟨none, ⟨"x".toList, TypeGroups.coll "Int".toList, true⟩⟩ (by decide)).1.mpr rfl

/- The regex type alternation binds exactly one of the two groups. -/
theorem coreMatch_groups_excl (f : CoreMatch) :
    (f.list = none ∧ f.ftype.isSome = true) ∨
    (f.list.isSome = true ∧ f.ftype = none) := by
  obtain ⟨nm, g, om⟩ := f
  cases g <;> simp [CoreMatch.list, CoreMatch.ftype]

/- Evaluation of the nested dict.get fallback chain on the two group
   shapes: either way the mapping resolves on the captured identifier and
   returns it unchanged when it is not a key. -/
theorem fieldWireType_scalar (nm t : List Char) (om : Bool) :
    fieldWireType ⟨nm, TypeGroups.scalar t, om⟩ =
      some ((dictGet DATA_TYPES (some t)).getD t) := by
  unfold fieldWireType
  rw [show CoreMatch.ftype ⟨nm, TypeGroups.scalar t, om⟩ = some t from rfl,
      show CoreMatch.list ⟨nm, TypeGroups.scalar t, om⟩ = none from rfl]
  cases hd : dictGet DATA_TYPES (some t) with
  | none => rfl
  | some w => rfl

theorem fieldWireType_coll (nm e : List Char) (om : Bool) :
    fieldWireType ⟨nm, TypeGroups.coll e, om⟩ =
      some ((dictGet DATA_TYPES (some e)).getD e) := by
  unfold fieldWireType
  rw [show CoreMatch.ftype ⟨nm, TypeGroups.coll e, om⟩ = none from rfl,
      show CoreMatch.list ⟨nm, TypeGroups.coll e, om⟩ = some e from rfl]
  cases hd : dictGet DATA_TYPES (some e) with
  | none => rfl
  | some w => rfl

/-- C4 (confirmed): the type mapping sends each supported scalar source
type name to its documented wire type (String to string, Int to int32,
Long to int64, Boolean to bool, Float to float, PreferenceValue to
bytes), returns every unrecognized type name unchanged with no error
path, and for a collection field is applied to the element type — the
outer collection type is never consulted. -/
theorem c4_type_mapper (body : String) (f : FieldMatch)
    (hf : f ∈ scanFields body.toList) :
    (f.core.ftype = some "String".toList → fieldWireType f.core = some "string".toList) ∧
    (f.core.ftype = some "Int".toList → fieldWireType f.core = some "int32".toList) ∧
    (f.core.ftype = some "Long".toList → fieldWireType f.core = some "int64".toList) ∧
    (f.core.ftype = some "Boolean".toList → fieldWireType f.core = some "bool".toList) ∧
    (f.core.ftype = some "Float".toList → fieldWireType f.core = some "float".toList) ∧
    (f.core.ftype = some "PreferenceValue".toList → fieldWireType f.core = some "bytes".toList) ∧
    (∀ t, f.core.ftype = some t → dictGet DATA_TYPES (some t) = none →
       fieldWireType f.core = some t) ∧
    (∀ e, f.core.list = some e →
       fieldWireType f.core = some ((dictGet DATA_TYPES (some e)).getD e)) := by
  obtain ⟨num, nm, g, om⟩ := f
  cases g with
  | scalar t0 =>
    refine ⟨fun h => ?_, fun h => ?_, fun h => ?_, fun h => ?_, fun h => ?_, fun h => ?_,
            fun t h hd => ?_, fun e h => ?_⟩
    · have ht : t0 = "String".toList := by simpa [CoreMatch.ftype] using h
      subst ht
      show fieldWireType ⟨nm, TypeGroups.scalar "String".toList, om⟩ = some "string".toList
      rw [fieldWireType_scalar]
      rfl
    · have ht : t0 = "Int".toList := by simpa [CoreMatch.ftype] using h
      subst ht
      show fieldWireType ⟨nm, TypeGroups.scalar "Int".toList, om⟩ = some "int32".toList
      rw [fieldWireType_scalar]
      rfl
    · have ht : t0 = "Long".toList := by simpa [CoreMatch.ftype] using h
      subst ht
      show fieldWireType ⟨nm, TypeGroups.scalar "Long".toList, om⟩ = some "int64".toList
      rw [fieldWireType_scalar]
      rfl
    · have ht : t0 = "Boolean".toList := by simpa [CoreMatch.ftype] using h
      subst ht
      show fieldWireType ⟨nm, TypeGroups.scalar "Boolean".toList, om⟩ = some "bool".toList
      rw [fieldWireType_scalar]
      rfl
    · have ht : t0 = "Float".toList := by simpa [CoreMatch.ftype] using h
      subst ht
      show fieldWireType ⟨nm, TypeGroups.scalar "Float".toList, om⟩ = some "float".toList
      rw [fieldWireType_scalar]
      rfl
    · have ht : t0 = "PreferenceValue".toList := by simpa [CoreMatch.ftype] using h
      subst ht
      show fieldWireType ⟨nm, TypeGroups.scalar "PreferenceValue".toList, om⟩ =
        some "bytes".toList
      rw [fieldWireType_scalar]
      rfl
    · have ht : t0 = t := by simpa [CoreMatch.ftype] using h
      subst ht
      show fieldWireType ⟨nm, TypeGroups.scalar t0, om⟩ = some t0
      rw [fieldWireType_scalar, hd]
      rfl
    · exact absurd h (by simp [CoreMatch.list])
  | coll e0 =>
    refine ⟨fun h => absurd h (by simp [CoreMatch.ftype]),
            fun h => absurd h (by simp [CoreMatch.ftype]),
            fun h => absurd h (by simp [CoreMatch.ftype]),
            fun h => absurd h (by simp [CoreMatch.ftype]),
            fun h => absurd h (by simp [CoreMatch.ftype]),
            fun h => absurd h (by simp [CoreMatch.ftype]),
            fun t h hd => absurd h (by simp [CoreMatch.ftype]),
            fun e h => ?_⟩
    have he : e0 = e := by simpa [CoreMatch.list] using h
    subst he
    show fieldWireType ⟨nm, TypeGroups.coll e0, om⟩ =
      some ((dictGet DATA_TYPES (some e0)).getD e0)
    exact fieldWireType_coll nm e0 om

theorem c4_type_mapper_witness :
    fieldWireType ⟨"a".toList, TypeGroups.scalar "String".toList, false⟩ =
      some "string".toList ∧
    fieldWireType ⟨"b".toList, TypeGroups.coll "Category".toList, false⟩ =
      some "Category".toList := by
  constructor
  · exact (c4_type_mapper "val a: String\nval b: List<Category>"
      ⟨none, ⟨"a".toList, TypeGroups.scalar "String".toList, false⟩⟩ (by decide)).1 rfl
  · have h := (c4_type_mapper "val a: String\nval b: List<Category>"
      ⟨none, ⟨"b".toList, TypeGroups.coll "Category".toList, false⟩⟩
      (by decide)).2.2.2.2.2.2.2 "Category".toList rfl
    rw [h]
    decide

/- A successful first prefix alternative implies the annotation shape
   matches right after the leading whitespace run. -/
theorem matchP1_start (t : List Char) (n : Nat) (r : List Char)
    (h : matchP1 t = some (n, r)) :
    (matchProtoNum (t.dropWhile isPySpace)).isSome = true := by
  unfold matchP1 at h
  split at h
  · exact absurd h (by simp)
  · cases hm : matchProtoNum (t.dropWhile isPySpace) with
    | none => rw [hm] at h; exact absurd h (by simp)
    | some p => rfl

theorem branchP1_start (ls : Bool) (t : List Char) (p : FieldMatch × List Char)
    (h : branchP1 ls t = some p) :
    ls = true ∧ (matchProtoNum (t.dropWhile isPySpace)).isSome = true := by
  unfold branchP1 at h
  split at h
  · rename_i hls
    split at h
    · rename_i n r2 hp
      exact ⟨hls, matchP1_start t n r2 hp⟩
    · exact absurd h (by simp)
  · exact absurd h (by simp)

/- The second and third prefix alternatives bind no number group. -/
theorem branchP2_num (t : List Char) (f : FieldMatch) (r : List Char)
    (h : branchP2 t = some (f, r)) : f.num = none := by
  unfold branchP2 at h
  split at h
  · split at h
    · simp only [Option.some.injEq, Prod.mk.injEq] at h
      obtain ⟨hf, hr⟩ := h
      rw [← hf]
    · exact absurd h (by simp)
  · exact absurd h (by simp)

theorem branchP3_num (ls : Bool) (t : List Char) (f : FieldMatch) (r : List Char)
    (h : branchP3 ls t = some (f, r)) : f.num = none := by
  unfold branchP3 at h
  split at h
  · split at h
    · simp only [Option.some.injEq, Prod.mk.injEq] at h
      obtain ⟨hf, hr⟩ := h
      rw [← hf]
    · exact absurd h (by simp)
  · exact absurd h (by simp)

/- A match that carries a number can only come from the first prefix
   alternative, anchored at a line start. -/
theorem matchFieldAt_num_some (ls : Bool) (t : List Char) (f : FieldMatch) (r : List Char)
    (h : matchFieldAt ls t = some (f, r)) (hn : f.num ≠ none) :
    ls = true ∧ (matchProtoNum (t.dropWhile isPySpace)).isSome = true := by
  unfold matchFieldAt at h
  split at h
  · rename_i p h1
    exact branchP1_start ls t p h1
  · rename_i h1
    split at h
    · rename_i p h2
      injection h with h3
      subst h3
      exact absurd (branchP2_num t f r h2) hn
    · exact absurd (branchP3_num ls t f r h) hn

/- Every offset strictly inside the leading whitespace run of the suffix
   at offset k holds a whitespace character. -/
theorem whitespace_region (s : List Char) (k j : Nat) (hkj : k ≤ j)
    (hji : j < k + ((s.drop k).takeWhile isPySpace).length) :
    ∃ c, s.get? j = some c ∧ isPySpace c = true := by
  have hlt : j - k < ((s.drop k).takeWhile isPySpace).length := by omega
  have h1 : s.get? j = (s.drop k).get? (j - k) := by
    rw [List.get?_drop]
    congr 1
    omega
  have h2 : (s.drop k).get? (j - k) =
      ((s.drop k).takeWhile isPySpace).get? (j - k) := by
    conv_lhs => rw [← List.takeWhile_append_dropWhile isPySpace (s.drop k)]
    exact List.get?_append hlt
  cases hc : ((s.drop k).takeWhile isPySpace).get? (j - k) with
  | none =>
    rw [List.get?_eq_none] at hc
    omega
  | some c =>
    refine ⟨c, by rw [h1, h2, hc], ?_⟩
    exact List.mem_takeWhile_imp (List.get?_mem hc)

theorem lineStartFlag_cases (s : List Char) (k : Nat) (h : lineStartFlag s k = true) :
    k = 0 ∨ s.get? (k - 1) = some '\n' := by
  unfold lineStartFlag at h
  rw [Bool.or_eq_true] at h
  rcases h with h | h
  · exact Or.inl (of_decide_eq_true h)
  · exact Or.inr (of_decide_eq_true h)

theorem drop_takeWhile_length (p : Char → Bool) (u : List Char) :
    u.drop (u.takeWhile p).length = u.dropWhile p := by
  induction u with
  | nil => rfl
  | cons a as ih =>
    by_cases hp : p a
    · simp [List.takeWhile_cons, List.dropWhile_cons, hp, ih]
    · simp [List.takeWhile_cons, List.dropWhile_cons, hp]

/- Core of the commented-annotation argument: a number-bearing match at a
   line start k exhibits an annotation occurrence i preceded on its line
   only by whitespace, so no comment marker fits before it. -/
theorem no_uncommented_occurrence (s : List Char) (k : Nat)
    (hk : lineStartFlag s k = true)
    (hm : (matchProtoNum ((s.drop k).dropWhile isPySpace)).isSome = true)
    (H : ∀ i, i < s.length → protoNumAt s i = true → commentBeforeOnLine s i = true) :
    False := by
  have hki : k ≤ k + ((s.drop k).takeWhile isPySpace).length := Nat.le_add_right _ _
  have hdrop : s.drop (k + ((s.drop k).takeWhile isPySpace).length) =
      (s.drop k).dropWhile isPySpace := by
    rw [← List.drop_drop]
    exact drop_takeWhile_length isPySpace (s.drop k)
  have hne : matchProtoNum ([] : List Char) = none := by decide
  have hilen : k + ((s.drop k).takeWhile isPySpace).length < s.length := by
    by_contra hge
    push_neg at hge
    have h0 : s.drop (k + ((s.drop k).takeWhile isPySpace).length) = [] :=
      List.drop_eq_nil_of_le hge
    rw [h0] at hdrop
    rw [← hdrop, hne] at hm
    exact absurd hm (by simp)
  have hocc : protoNumAt s (k + ((s.drop k).takeWhile isPySpace).length) = true := by
    unfold protoNumAt
    rw [hdrop]
    exact hm
  have hcb := H _ hilen hocc
  unfold commentBeforeOnLine at hcb
  rw [List.any_eq_true] at hcb
  obtain ⟨j, hjmem, hj⟩ := hcb
  rw [List.mem_range] at hjmem
  simp only [Bool.and_eq_true, decide_eq_true_eq] at hj
  obtain ⟨⟨hcm, hj2i⟩, hnl⟩ := hj
  unfold commentMarkAt at hcm
  simp only [Bool.and_eq_true, decide_eq_true_eq] at hcm
  obtain ⟨hsj, hsj1⟩ := hcm
  by_cases hjk : k ≤ j
  · obtain ⟨c, hc, hcs⟩ := whitespace_region s k j hjk hjmem
    rw [hsj] at hc
    injection hc with hc
    rw [← hc] at hcs
    exact absurd hcs (by decide)
  · push_neg at hjk
    have hk0 : k ≠ 0 := by omega
    have hnlk : s.get? (k - 1) = some '\n' := by
      rcases lineStartFlag_cases s k hk with h | h
      · exact absurd h hk0
      · exact h
    unfold noNewlineBetween at hnl
    rw [List.all_eq_true] at hnl
    have hd : (k - 1 - j) ∈
        List.range (k + ((s.drop k).takeWhile isPySpace).length - j) := by
      rw [List.mem_range]
      omega
    have hno := hnl _ hd
    simp only [Bool.not_eq_true', decide_eq_false_iff_not] at hno
    apply hno
    rw [show j + (k - 1 - j) = k - 1 from by omega]
    exact hnlk

theorem scanFrom_no_num (s : List Char)
    (H : ∀ i, i < s.length → protoNumAt s i = true → commentBeforeOnLine s i = true) :
    ∀ fuel k f, f ∈ scanFrom s fuel k → f.num = none := by
  intro fuel
  induction fuel with
  | zero => intro k f hf; simp [scanFrom] at hf
  | succ m ih =>
    intro k f hf
    rw [scanFrom] at hf
    split at hf
    · simp at hf
    · cases hmf : matchFieldAt (lineStartFlag s k) (s.drop k) with
      | none => rw [hmf] at hf; exact ih _ _ hf
      | some p =>
        obtain ⟨f0, r⟩ := p
        rw [hmf] at hf
        simp only [List.mem_cons] at hf
        rcases hf with rfl | hf
        · by_contra hn
          obtain ⟨hls, hm⟩ := matchFieldAt_num_some _ _ _ _ hmf hn
          exact no_uncommented_occurrence s k hls hm H
        · exact ih _ _ hf

/-- C8 (confirmed): in any class body where every occurrence of the tag
shape, at every offset, is preceded on its own line by a line-comment
marker, the Declaration Scanner binds no number group at all — so no
field descriptor receives the number of a commented-out tag. -/
theorem c8_commented_never_matches (s : List Char)
    (H : ∀ i, i < s.length → protoNumAt s i = true → commentBeforeOnLine s i = true) :
    ∀ f ∈ scanFields s, f.num = none := by
  intro f hf
  exact scanFrom_no_num s H _ _ f hf

theorem c8_commented_never_matches_witness :
    ((scanFields "// @ProtoNumber(3)\nval x: Int".toList).all
      (fun f => f.num.isNone)) = true := by
  have h := c8_commented_never_matches "// @ProtoNumber(3)\nval x: Int".toList (by decide)
  rw [List.all_eq_true]
  intro f hf
  rw [h f hf]
  rfl
